import Mathlib

/-!
Verification of the AI-Helper agent core (`ai_helper/tools.py` and
`ai_helper/agent.py`) against its natural-language specification.

The development shallowly embeds the Python code:

* Python strings are `String` (operated on through their `List Char` data);
  `str.lower`, `str.strip` and the regular expressions that the code uses are
  modelled for the ASCII fragment, which covers every string the code builds
  itself and every concrete input appearing in a theorem below.
* JSON values (`json.loads` / `json.dumps`) are modelled by the inductive
  `JVal`.  Integer numerals carry their value; non-integer numerals (and the
  `NaN`/`Infinity` extensions `json.loads` accepts by default) are parsed with
  the same acceptance grammar as `json.loads` but carried as their source
  literal, since no code under study computes with a float value — only
  truthiness and (non-)object-ness of decoded values influence control flow,
  and IEEE rounding/underflow is outside the model.
* Fallible Python code is modelled with `Except PyExc`; a `PyExc` carries the
  exception's type name, message and formatted traceback.  `try/except` blocks
  become `match` on the `Except` value.
* Tool handlers are modelled as functions from keyword arguments to
  `Except PyExc ToolResult`, i.e. a handler may raise but, per the tool
  contract of the spec (§6), returns an `InvocationResult` when it returns.
* Wall-clock timing fields (`elapsed_s`, `total_elapsed_s`) are not modelled:
  no claim mentions them.
-/

namespace AIHelper

/-! ## Character and string helpers -/

/-- Backtick character (code 96). -/
def btick : Char := Char.ofNat 96

/-- Left curly brace character (code 123). -/
def lbrace : Char := Char.ofNat 123

/-- Right curly brace character (code 125). -/
def rbrace : Char := Char.ofNat 125

/-- Single-quote character (code 39). -/
def squote : Char := Char.ofNat 39

/-- Double-quote character (code 34). -/
def dquote : Char := Char.ofNat 34

/-- Backslash character (code 92). -/
def bslash : Char := Char.ofNat 92

/-- ASCII whitespace, as recognised by Python's `str.strip` and `\s`. -/
def isSpaceChar (c : Char) : Bool :=
  c == ' ' || c == '\t' || c == '\n' || c == '\r' || c == '\x0b' || c == '\x0c'

/-- ASCII word characters, as recognised by Python's `\w` and `\b`. -/
def isWordChar (c : Char) : Bool :=
  c.isAlphanum || c == '_'

/-- Python `str.strip()` (ASCII whitespace). -/
def pyStrip (s : String) : String :=
  ⟨((s.data.dropWhile isSpaceChar).reverse.dropWhile isSpaceChar).reverse⟩

/-- Python `str.lower()` (ASCII letters). -/
def strLower (s : String) : String :=
  ⟨s.data.map Char.toLower⟩

/-- Python `', '.join(items)` / `sep.join(items)` for the separator `", "`. -/
def joinComma : List String → String
  | [] => ""
  | [s] => s
  | s :: rest => s ++ ", " ++ joinComma rest

/-- Lexicographic `≤` on character lists (Python string comparison). -/
def charListLe : List Char → List Char → Bool
  | [], _ => true
  | _ :: _, [] => false
  | a :: as, b :: bs => if a < b then true else if b < a then false else charListLe as bs

/-- Python `s1 <= s2` on strings. -/
def strLe (a b : String) : Bool := charListLe a.data b.data

/-- Insert a string into an ascending list (helper for `sortStrings`). -/
def insertStr (x : String) : List String → List String
  | [] => [x]
  | y :: ys => if strLe x y then x :: y :: ys else y :: insertStr x ys

/-- Python `sorted(strings)`: insertion sort in ascending lexicographic order. -/
def sortStrings : List String → List String
  | [] => []
  | x :: xs => insertStr x (sortStrings xs)

/-- Holds when `needle` occurs as a contiguous substring of `hay`. -/
def containsStr (hay needle : String) : Prop :=
  needle.data <:+: hay.data

/-! ## JSON values (`json.loads` / `json.dumps`) -/

/-- A JSON value.  Integer numerals are carried as integers (`num`);
non-integer numerals — fractions, exponents and the `NaN`/`Infinity`
extensions `json.loads` accepts by default — are carried as their source
literal (`fnum`).  No code under study computes with a float value: floats
only flow through the loop as opaque data (where only their truthiness and
non-object-ness matter), so the literal is the faithful representation short
of IEEE semantics. -/
inductive JVal where
  | null : JVal
  | bool : Bool → JVal
  | num : Int → JVal
  | fnum : String → JVal
  | str : String → JVal
  | arr : List JVal → JVal
  | obj : List (String × JVal) → JVal

/-- Insert or overwrite a key in an object's binding list, mirroring CPython
dict semantics during JSON decoding: an existing key keeps its position and
gets the new value, a new key is appended. -/
def objInsert (kvs : List (String × JVal)) (k : String) (v : JVal) :
    List (String × JVal) :=
  match kvs with
  | [] => [(k, v)]
  | (k0, v0) :: rest =>
      if k0 == k then (k0, v) :: rest else (k0, v0) :: objInsert rest k v

/-- Python `d.get(key, default)` on a decoded JSON object.  Keys produced by
`objInsert` are unique, so first match suffices. -/
def jObjGetD (kvs : List (String × JVal)) (k : String) (dflt : JVal) : JVal :=
  match kvs.find? (fun kv => kv.1 == k) with
  | some kv => kv.2
  | none => dflt

/-- Python `key in d` on a decoded JSON object / kwargs dict. -/
def kwargsHas (kvs : List (String × JVal)) (k : String) : Bool :=
  kvs.any (fun kv => kv.1 == k)

/-- Truthiness of a float literal: `NaN` and the infinities are truthy; a
numeral is falsy exactly when its mantissa digits are all zero.  Underflow
of extreme exponents to `0.0` (Python `bool(1e-400) = False`) is IEEE
behaviour outside this model. -/
def fnumTruthy (lit : String) : Bool :=
  let mant := lit.data.takeWhile (fun c => !(c == 'e' || c == 'E'))
  !(mant.any Char.isDigit) || mant.any (fun c => c.isDigit && c != '0')

/-- Python truthiness (`bool(x)`) of a JSON value. -/
def pyTruthy : JVal → Bool
  | JVal.null => false
  | JVal.bool b => b
  | JVal.num n => n != 0
  | JVal.fnum lit => fnumTruthy lit
  | JVal.str s => s != ""
  | JVal.arr xs => !xs.isEmpty
  | JVal.obj kvs => !kvs.isEmpty

/-! ### JSON decoding

A fuel-based recursive-descent parser accepting the same documents as
`json.loads` (strict mode: unescaped control characters inside strings are
rejected, leading zeros in numerals are rejected, input must be consumed in
full up to trailing whitespace; the `NaN`/`Infinity` constants are accepted,
as `allow_nan` defaults to true).  Surrogate-pair combining in `\u` escapes
is not modelled (acceptance is unaffected and no claim decodes such text). -/

/-- JSON structural whitespace accepted between tokens by `json.loads`. -/
def isJsonWs (c : Char) : Bool :=
  c == ' ' || c == '\t' || c == '\n' || c == '\r'

/-- Skip JSON structural whitespace. -/
def skipWs (cs : List Char) : List Char := cs.dropWhile isJsonWs

/-- Value of a hexadecimal digit, if the character is one (by code point:
digits 48–57, lower-case letters 97–102, upper-case letters 65–70). -/
def hexVal (c : Char) : Option Nat :=
  let n := c.toNat
  if 48 ≤ n && n ≤ 57 then some (n - 48)
  else if 97 ≤ n && n ≤ 102 then some (n - 87)
  else if 65 ≤ n && n ≤ 70 then some (n - 55)
  else none

/-- Parse the body of a JSON string literal (after the opening quote),
returning the decoded characters and the input after the closing quote. -/
def parseJString (fuel : Nat) (cs : List Char) : Option (List Char × List Char) :=
  match fuel, cs with
  | 0, _ => none
  | _, [] => none
  | fuel + 1, c :: rest =>
      if c == dquote then some ([], rest)
      else if c == bslash then
        match rest with
        | [] => none
        | e :: rest2 =>
            let decoded : Option (Char × List Char) :=
              if e == dquote then some (dquote, rest2)
              else if e == bslash then some (bslash, rest2)
              else if e == '/' then some ('/', rest2)
              else if e == 'b' then some ('\x08', rest2)
              else if e == 'f' then some ('\x0c', rest2)
              else if e == 'n' then some ('\n', rest2)
              else if e == 'r' then some ('\r', rest2)
              else if e == 't' then some ('\t', rest2)
              else if e == 'u' then
                match rest2 with
                | h1 :: h2 :: h3 :: h4 :: rest3 =>
                    match hexVal h1, hexVal h2, hexVal h3, hexVal h4 with
                    | some a, some b, some c3, some d =>
                        some (Char.ofNat (((a * 16 + b) * 16 + c3) * 16 + d), rest3)
                    | _, _, _, _ => none
                | _ => none
              else none
            match decoded with
            | some (ch, rest3) =>
                match parseJString fuel rest3 with
                | some (tail, rem) => some (ch :: tail, rem)
                | none => none
            | none => none
      else if c.toNat < 32 then none
      else
        match parseJString fuel rest with
        | some (tail, rem) => some (c :: tail, rem)
        | none => none

/-- Consume one or more decimal digits, or fail. -/
def parseDigits (cs : List Char) : Option (List Char × List Char) :=
  match cs with
  | c :: rest =>
      if c.isDigit then
        some (c :: rest.takeWhile Char.isDigit, rest.dropWhile Char.isDigit)
      else none
  | [] => none

/-- Consume the integer part of a JSON numeral: a single `0`, or a nonzero
digit followed by more digits (leading zeros rejected, as `json.loads`
does). -/
def parseIntPart (cs : List Char) : Option (List Char × List Char) :=
  match cs with
  | c :: rest =>
      if c == '0' then some ([c], rest)
      else if c.isDigit then
        some (c :: rest.takeWhile Char.isDigit, rest.dropWhile Char.isDigit)
      else none
  | [] => none

/-- Numeric value of a digit string. -/
def digitsToNat (ds : List Char) : Nat :=
  ds.foldl (fun acc d => acc * 10 + (d.toNat - 48)) 0

/-- Parse a JSON numeral per `json.loads`'s grammar
`-? int frac? exp?` with `frac = . digits+` and `exp = [eE] [+-]? digits+`:
a numeral with neither fraction nor exponent is an integer, any other is a
float carried as its source literal.  A dangling `.` or `e` is not consumed,
which rejects the malformed numeral in every JSON context just as
`json.loads` does. -/
def parseJNumber (cs : List Char) : Option (JVal × List Char) :=
  let signed := match cs with
    | c :: rest => if c == '-' then (true, rest) else (false, cs)
    | [] => (false, cs)
  match parseIntPart signed.2 with
  | none => none
  | some (ip, cs2) =>
      let frac : Option (List Char) × List Char := match cs2 with
        | c :: rest =>
            if c == '.' then
              match parseDigits rest with
              | some (ds, r) => (some ds, r)
              | none => (none, cs2)
            else (none, cs2)
        | [] => (none, cs2)
      let expPart : Option (List Char) × List Char := match frac.2 with
        | c :: rest =>
            if c == 'e' || c == 'E' then
              match rest with
              | d :: rest2 =>
                  if d == '+' || d == '-' then
                    match parseDigits rest2 with
                    | some (ds, r) => (some (c :: d :: ds), r)
                    | none => (none, frac.2)
                  else
                    match parseDigits rest with
                    | some (ds, r) => (some (c :: ds), r)
                    | none => (none, frac.2)
              | [] => (none, frac.2)
            else (none, frac.2)
        | [] => (none, frac.2)
      match frac.1, expPart.1 with
      | none, none =>
          some (JVal.num (if signed.1 then -(digitsToNat ip : Int)
                          else (digitsToNat ip : Int)), cs2)
      | fr, ex =>
          let lit : List Char :=
            (if signed.1 then ['-'] else []) ++ ip ++
            (match fr with
             | some ds => '.' :: ds
             | none => []) ++
            (match ex with
             | some ds => ds
             | none => [])
          some (JVal.fnum ⟨lit⟩, expPart.2)

mutual

/-- Parse one JSON value (leading whitespace allowed). -/
def parseJValue (fuel : Nat) (cs : List Char) : Option (JVal × List Char) :=
  match fuel with
  | 0 => none
  | fuel + 1 =>
      let cs := skipWs cs
      match cs with
      | [] => none
      | c :: rest =>
          if c == lbrace then parseJMembers fuel rest []
          else if c == '[' then parseJItems fuel rest []
          else if c == dquote then
            match parseJString fuel rest with
            | some (body, rem) => some (JVal.str ⟨body⟩, rem)
            | none => none
          else if c == 't' then
            if rest.take 3 == ['r', 'u', 'e'] then some (JVal.bool true, rest.drop 3)
            else none
          else if c == 'f' then
            if rest.take 4 == ['a', 'l', 's', 'e'] then some (JVal.bool false, rest.drop 4)
            else none
          else if c == 'n' then
            if rest.take 3 == ['u', 'l', 'l'] then some (JVal.null, rest.drop 3)
            else none
          else if c == 'N' then
            if rest.take 2 == ['a', 'N'] then
              some (JVal.fnum "NaN", rest.drop 2)
            else none
          else if c == 'I' then
            if rest.take 7 == ['n', 'f', 'i', 'n', 'i', 't', 'y'] then
              some (JVal.fnum "Infinity", rest.drop 7)
            else none
          else if c == '-' && rest.take 8 == ['I', 'n', 'f', 'i', 'n', 'i', 't', 'y'] then
            some (JVal.fnum "-Infinity", rest.drop 8)
          else if c == '-' || c.isDigit then
            parseJNumber cs
          else none

/-- Parse object members after the opening brace; `acc` holds the members
decoded so far. -/
def parseJMembers (fuel : Nat) (cs : List Char) (acc : List (String × JVal)) :
    Option (JVal × List Char) :=
  match fuel with
  | 0 => none
  | fuel + 1 =>
      let cs := skipWs cs
      match cs with
      | [] => none
      | c :: rest =>
          if c == rbrace && acc.isEmpty then some (JVal.obj [], rest)
          else if c == dquote then
            match parseJString fuel rest with
            | some (key, afterKey) =>
                match skipWs afterKey with
                | ':' :: afterColon =>
                    match parseJValue fuel afterColon with
                    | some (v, afterVal) =>
                        let acc := objInsert acc ⟨key⟩ v
                        match skipWs afterVal with
                        | ',' :: afterComma => parseJMembers fuel afterComma acc
                        | d :: afterBrace =>
                            if d == rbrace then some (JVal.obj acc, afterBrace) else none
                        | [] => none
                    | none => none
                | _ => none
            | none => none
          else none

/-- Parse array items after the opening bracket; `acc` holds the items decoded
so far, in reverse. -/
def parseJItems (fuel : Nat) (cs : List Char) (acc : List JVal) :
    Option (JVal × List Char) :=
  match fuel with
  | 0 => none
  | fuel + 1 =>
      let ws := skipWs cs
      match ws with
      | ']' :: rest =>
          if acc.isEmpty then some (JVal.arr [], rest)
          else
            match parseJValue fuel cs with
            | some (v, afterVal) =>
                match skipWs afterVal with
                | ',' :: afterComma => parseJItems fuel afterComma (v :: acc)
                | ']' :: afterBracket => some (JVal.arr (v :: acc).reverse, afterBracket)
                | _ => none
            | none => none
      | _ =>
          match parseJValue fuel cs with
          | some (v, afterVal) =>
              match skipWs afterVal with
              | ',' :: afterComma => parseJItems fuel afterComma (v :: acc)
              | ']' :: afterBracket => some (JVal.arr (v :: acc).reverse, afterBracket)
              | _ => none
          | none => none

end

/-- Python `json.loads`: parse one JSON document, allowing surrounding
whitespace and requiring the input to be fully consumed. -/
def jsonLoads (cs : List Char) : Option JVal :=
  match parseJValue (cs.length + 1) cs with
  | some (v, rest) => if (skipWs rest).isEmpty then some v else none
  | none => none

/-! ### JSON encoding (`json.dumps` with default options) -/

/-- Escape one character of a JSON string as `json.dumps` does (ASCII input;
`ensure_ascii` escaping of non-ASCII characters is not modelled). -/
def jsonEscapeChar (c : Char) : List Char :=
  if c == dquote then [bslash, dquote]
  else if c == bslash then [bslash, bslash]
  else if c == '\n' then [bslash, 'n']
  else if c == '\t' then [bslash, 't']
  else if c == '\r' then [bslash, 'r']
  else if c == '\x08' then [bslash, 'b']
  else if c == '\x0c' then [bslash, 'f']
  else [c]

/-- Encode a string literal as `json.dumps` does. -/
def jsonDumpStr (s : String) : String :=
  ⟨dquote :: (s.data.flatMap jsonEscapeChar) ++ [dquote]⟩

mutual

/-- Python `json.dumps` with the default separators `", "` and `": "`. -/
def jsonDumps : JVal → String
  | JVal.null => "null"
  | JVal.bool true => "true"
  | JVal.bool false => "false"
  | JVal.num n => toString n
  | JVal.fnum lit => lit
  | JVal.str s => jsonDumpStr s
  | JVal.arr xs => "[" ++ joinComma (jsonDumpsList xs) ++ "]"
  | JVal.obj kvs => "\x7b" ++ joinComma (jsonDumpsMembers kvs) ++ "\x7d"

/-- Encode the elements of a JSON array. -/
def jsonDumpsList : List JVal → List String
  | [] => []
  | v :: rest => jsonDumps v :: jsonDumpsList rest

/-- Encode the members of a JSON object. -/
def jsonDumpsMembers : List (String × JVal) → List String
  | [] => []
  | (k, v) :: rest => (jsonDumpStr k ++ ": " ++ jsonDumps v) :: jsonDumpsMembers rest

end

/-! ## `Agent._parse_action`: tolerant structured-action extraction

`_parse_action` performs `re.sub(r"```(?:json)?\s*", "", text)`, strips the
result, takes the greedy span `\{.*\}` (DOTALL: from the first brace having a
closing brace after it — hence from the first `{` — to the last `}` of the
whole text) and feeds it to `json.loads`. -/

/-- Drop a literal `json` tag if the input starts with one (the optional
`(?:json)?` group of the fence-stripping pattern). -/
def dropJsonTag (cs : List Char) : List Char :=
  if cs.take 4 == ['j', 's', 'o', 'n'] then cs.drop 4 else cs

/-- One left-to-right pass of `re.sub(r"```(?:json)?\s*", "", text)`:
at each position, a match (three backticks, optional `json`, greedy
whitespace) is removed and scanning resumes after it.  Fuel bounds the
recursion; `stripFences` supplies enough. -/
def stripFencesAux : Nat → List Char → List Char
  | 0, l => l
  | _, [] => []
  | fuel + 1, c :: rest =>
      if c == btick && rest.take 2 == [btick, btick] then
        stripFencesAux fuel ((dropJsonTag (rest.drop 2)).dropWhile isSpaceChar)
      else c :: stripFencesAux fuel rest

/-- Python `re.sub(r"```(?:json)?\s*", "", text)`. -/
def stripFences (cs : List Char) : List Char :=
  stripFencesAux cs.length cs

/-- The greedy DOTALL match of `\{.*\}`: the span from the first `{` to the
last `}`, when the latter comes after the former; `none` otherwise. -/
def braceSpan (cs : List Char) : Option (List Char) :=
  match cs.findIdx? (fun c => c == lbrace),
        cs.reverse.findIdx? (fun c => c == rbrace) with
  | some i, some jr =>
      let j := cs.length - 1 - jr
      if i < j then some ((cs.take (j + 1)).drop i) else none
  | _, _ => none

/-- Model of `Agent._parse_action`: extract the first JSON object from free text, or
`none`.  A successful greedy span necessarily starts `{` and ends `}`, so a
successful `json.loads` always yields an object; its members are returned. -/
def parseAction (s : String) : Option (List (String × JVal)) :=
  let cleaned := pyStrip ⟨stripFences s.data⟩
  match braceSpan cleaned.data with
  | none => none
  | some span =>
      match jsonLoads span with
      | some (JVal.obj kvs) => some kvs
      | _ => none

/-! ## Regular expressions of the rule-based planner

The eleven `_RULES` patterns use only: literal characters, `.`-wildcards
under `+`/`*`, character-class wildcards `\s`/`\w` under `+`, the optional
suffix `?`, alternation, grouping and the word-boundary assertion `\b`.
`Rx` covers exactly that fragment and `reSearch` implements `re.search`
existence semantics (is there any start position from which the pattern
matches?). -/

/-- Regular-expression abstract syntax for the fragment used by `_RULES`.
`starCls`/`plusCls` are Kleene star/plus over a single-character class,
which is the only way the source patterns use repetition. -/
inductive Rx where
  | eps : Rx
  | ch : Char → Rx
  | cls : (Char → Bool) → Rx
  | seq : Rx → Rx → Rx
  | alt : Rx → Rx → Rx
  | opt : Rx → Rx
  | starCls : (Char → Bool) → Rx
  | plusCls : (Char → Bool) → Rx
  | wordB : Rx

/-- Word-boundary test of `\b` at position `i` of `cs`. -/
def wordBoundary (cs : List Char) (i : Nat) : Bool :=
  let before : Bool :=
    match i with
    | 0 => false
    | j + 1 => match cs[j]? with
               | some c => isWordChar c
               | none => false
  let after : Bool :=
    match cs[i]? with
    | some c => isWordChar c
    | none => false
  before != after

/-- Length of the maximal prefix of `cs.drop i` whose characters satisfy `p`. -/
def runLen (p : Char → Bool) (cs : List Char) (i : Nat) : Nat :=
  ((cs.drop i).takeWhile p).length

/-- All end positions from which the rest of a pattern could continue, for a
match of `r` starting at position `i` of `cs`. -/
def rxMatch (cs : List Char) : Rx → Nat → List Nat
  | Rx.eps, i => [i]
  | Rx.ch c, i =>
      match cs[i]? with
      | some d => if d == c then [i + 1] else []
      | none => []
  | Rx.cls p, i =>
      match cs[i]? with
      | some d => if p d then [i + 1] else []
      | none => []
  | Rx.seq a b, i => (rxMatch cs a i).flatMap (rxMatch cs b)
  | Rx.alt a b, i => rxMatch cs a i ++ rxMatch cs b i
  | Rx.opt a, i => i :: rxMatch cs a i
  | Rx.starCls p, i => (List.range (runLen p cs i + 1)).map (i + ·)
  | Rx.plusCls p, i => (List.range (runLen p cs i)).map (i + · + 1)
  | Rx.wordB, i => if wordBoundary cs i then [i] else []

/-- Python `re.search(pattern, s) is not None`: the pattern matches starting at some
position of `s`. -/
def reSearch (r : Rx) (s : String) : Bool :=
  (List.range (s.data.length + 1)).any (fun i => !(rxMatch s.data r i).isEmpty)

/-- Sequence a list of characters as literal matches. -/
def rxStr (s : String) : Rx :=
  s.data.foldr (fun c acc => Rx.seq (Rx.ch c) acc) Rx.eps

/-- Wildcard `.` of a non-DOTALL pattern under `+`: any character except newline. -/
def rxDotPlus : Rx := Rx.plusCls (fun c => c != '\n')

/-- Wildcard run `.*` of a non-DOTALL pattern. -/
def rxDotStar : Rx := Rx.starCls (fun c => c != '\n')

/-- Whitespace run `\s+`. -/
def rxSpacePlus : Rx := Rx.plusCls isSpaceChar

/-- Concatenate a list of sub-patterns. -/
def rxCat (rs : List Rx) : Rx :=
  rs.foldr Rx.seq Rx.eps

/-- Pattern `\bread\b.+file|open.+file|contents?\s+of` (rule for `read_file`). -/
def rxReadFile : Rx :=
  Rx.alt (rxCat [Rx.wordB, rxStr "read", Rx.wordB, rxDotPlus, rxStr "file"])
    (Rx.alt (rxCat [rxStr "open", rxDotPlus, rxStr "file"])
      (rxCat [rxStr "content", Rx.opt (Rx.ch 's'), rxSpacePlus, rxStr "of"]))

/-- Pattern `\bwrite\b.+to\b|save.+file|create.+file` (rule for `write_file`). -/
def rxWriteFile : Rx :=
  Rx.alt (rxCat [Rx.wordB, rxStr "write", Rx.wordB, rxDotPlus, rxStr "to", Rx.wordB])
    (Rx.alt (rxCat [rxStr "save", rxDotPlus, rxStr "file"])
      (rxCat [rxStr "create", rxDotPlus, rxStr "file"]))

/-- Pattern `\bsearch\b.+files?|find.+files?|look for.+files?` (rule for
`search_files`). -/
def rxSearchFiles : Rx :=
  Rx.alt (rxCat [Rx.wordB, rxStr "search", Rx.wordB, rxDotPlus, rxStr "file", Rx.opt (Rx.ch 's')])
    (Rx.alt (rxCat [rxStr "find", rxDotPlus, rxStr "file", Rx.opt (Rx.ch 's')])
      (rxCat [rxStr "look for", rxDotPlus, rxStr "file", Rx.opt (Rx.ch 's')]))

/-- Pattern `\blist\b.+(files?|folder|dir)|what.+in.+dir|ls\b` (rule for
`list_directory`). -/
def rxListDirectory : Rx :=
  Rx.alt (rxCat [Rx.wordB, rxStr "list", Rx.wordB, rxDotPlus,
                 Rx.alt (rxCat [rxStr "file", Rx.opt (Rx.ch 's')])
                   (Rx.alt (rxStr "folder") (rxStr "dir"))])
    (Rx.alt (rxCat [rxStr "what", rxDotPlus, rxStr "in", rxDotPlus, rxStr "dir"])
      (rxCat [rxStr "ls", Rx.wordB]))

/-- Pattern `\brun\b.+program|execute|launch|start\s+\w` (rule for
`run_program`). -/
def rxRunProgram : Rx :=
  Rx.alt (rxCat [Rx.wordB, rxStr "run", Rx.wordB, rxDotPlus, rxStr "program"])
    (Rx.alt (rxStr "execute")
      (Rx.alt (rxStr "launch")
        (rxCat [rxStr "start", rxSpacePlus, Rx.cls isWordChar])))

/-- Pattern `\bgpu\b|vram|nvidia|graphics\s+card` (rule for `gpu_stats`). -/
def rxGpuStats : Rx :=
  Rx.alt (rxCat [Rx.wordB, rxStr "gpu", Rx.wordB])
    (Rx.alt (rxStr "vram")
      (Rx.alt (rxStr "nvidia")
        (rxCat [rxStr "graphics", rxSpacePlus, rxStr "card"])))

/-- Pattern `\bai\s+apps?\b|comfyui|lm\s+studio|stable\s+diff` (rule for
`list_ai_apps`). -/
def rxListAiApps : Rx :=
  Rx.alt (rxCat [Rx.wordB, rxStr "ai", rxSpacePlus, rxStr "app", Rx.opt (Rx.ch 's'), Rx.wordB])
    (Rx.alt (rxStr "comfyui")
      (Rx.alt (rxCat [rxStr "lm", rxSpacePlus, rxStr "studio"])
        (rxCat [rxStr "stable", rxSpacePlus, rxStr "diff"])))

/-- Pattern `\bollama.*model|model.*ollama|list.*model` (rule for
`list_ollama_models`). -/
def rxListOllamaModels : Rx :=
  Rx.alt (rxCat [Rx.wordB, rxStr "ollama", rxDotStar, rxStr "model"])
    (Rx.alt (rxCat [rxStr "model", rxDotStar, rxStr "ollama"])
      (rxCat [rxStr "list", rxDotStar, rxStr "model"]))

/-- Pattern `\bollama\b|local\s+llm|local\s+model|ask.*model` (rule for
`ask_ollama`). -/
def rxAskOllama : Rx :=
  Rx.alt (rxCat [Rx.wordB, rxStr "ollama", Rx.wordB])
    (Rx.alt (rxCat [rxStr "local", rxSpacePlus, rxStr "llm"])
      (Rx.alt (rxCat [rxStr "local", rxSpacePlus, rxStr "model"])
        (rxCat [rxStr "ask", rxDotStar, rxStr "model"])))

/-- Pattern `\bcpu\b|\bmemory\b|\bdisk\b|system\s+stat|resource` (rule for
`system_snapshot`). -/
def rxSystemSnapshot : Rx :=
  Rx.alt (rxCat [Rx.wordB, rxStr "cpu", Rx.wordB])
    (Rx.alt (rxCat [Rx.wordB, rxStr "memory", Rx.wordB])
      (Rx.alt (rxCat [Rx.wordB, rxStr "disk", Rx.wordB])
        (Rx.alt (rxCat [rxStr "system", rxSpacePlus, rxStr "stat"])
          (rxStr "resource"))))

/-- Pattern `\bprocesses?\b|running programs?|what.+running` (rule for
`list_programs`). -/
def rxListPrograms : Rx :=
  Rx.alt (rxCat [Rx.wordB, rxStr "processe", Rx.opt (Rx.ch 's'), Rx.wordB])
    (Rx.alt (rxCat [rxStr "running program", Rx.opt (Rx.ch 's')])
      (rxCat [rxStr "what", rxDotPlus, rxStr "running"]))

/-- Model of `Agent._RULES`: the ordered (pattern, tool-name) rule list.  The third
component of each source triple, an args template, is never read by the code
(`for pattern, tool_name, _ in self._RULES`) and is omitted. -/
def agentRules : List (Rx × String) :=
  [(rxReadFile, "read_file"),
   (rxWriteFile, "write_file"),
   (rxSearchFiles, "search_files"),
   (rxListDirectory, "list_directory"),
   (rxRunProgram, "run_program"),
   (rxGpuStats, "gpu_stats"),
   (rxListAiApps, "list_ai_apps"),
   (rxListOllamaModels, "list_ollama_models"),
   (rxAskOllama, "ask_ollama"),
   (rxSystemSnapshot, "system_snapshot"),
   (rxListPrograms, "list_programs")]

/-! ## `ai_helper/tools.py`: tool contract types and the registry -/

/-- A Python exception value: its type's `__name__`, its message (`str(exc)`)
and the `traceback.format_exc()` text that would accompany it. -/
structure PyExc where
  typeName : String
  msg : String
  trace : String

/-- Does the character occur in the list (by `==`)? -/
def hasCh (l : List Char) (c : Char) : Bool :=
  l.any (fun d => d == c)

/-- The quote character CPython's `repr` picks for a string: single quotes,
unless the string contains a single quote but no double quote. -/
def reprQuote (s : String) : Char :=
  if hasCh s.data squote && !(hasCh s.data dquote) then dquote else squote

/-- Lower-case hexadecimal digit for a value below 16. -/
def hexDigitChar (n : Nat) : Char :=
  if n < 10 then Char.ofNat (48 + n) else Char.ofNat (87 + n)

/-- One character of a CPython string `repr` with quote character `q`:
backslash and the quote are backslash-escaped, tab/newline/return get their
two-character escapes, other control characters (below 32, and 127) become
`\xHH`.  Printable characters — including, beyond ASCII, the code points
CPython would keep or escape by Unicode printability, which is not
modelled — stay verbatim. -/
def reprEscapeChar (q c : Char) : List Char :=
  if c == bslash then [bslash, bslash]
  else if c == q then [bslash, q]
  else if c == '\t' then [bslash, 't']
  else if c == '\n' then [bslash, 'n']
  else if c == '\r' then [bslash, 'r']
  else if c.toNat < 32 || c.toNat == 127 then
    [bslash, 'x', hexDigitChar (c.toNat / 16), hexDigitChar (c.toNat % 16)]
  else [c]

/-- Python `repr` of a string, as used by `!r` formatting: the chosen quote
around the escaped characters. -/
def pyReprStr (s : String) : String :=
  let q := reprQuote s
  ⟨q :: (s.data.flatMap (reprEscapeChar q) ++ [q])⟩

/-- Names whose `repr` keeps them verbatim between the quotes: printable
ASCII, no backslash, and not both kinds of quote at once. -/
def plainName (s : String) : Bool :=
  s.data.all
    (fun c => decide (32 ≤ c.toNat) && decide (c.toNat ≤ 126) && !(c == bslash)) &&
  !(hasCh s.data squote && hasCh s.data dquote)

/-- Model of `ToolParam`: description of one parameter accepted by a `Tool`. -/
structure ToolParam where
  name : String
  type : String
  description : String
  required : Bool
  default : JVal

/-- Model of `ToolResult`: the outcome of invoking a `Tool`.  `tool_name` is a `JVal`
because the agent loop can pass a non-string tool name straight from decoded
JSON into `ToolRegistry.invoke`, which stores it in the failure result; every
result built by the registry for a string name wraps it in `JVal.str`.
The `data` payload is not modelled (no claim reads it). -/
structure ToolResult where
  tool_name : JVal
  success : Bool
  output : String
  error : String

/-- Python `str()` of a decoded JSON value (atoms only; the containers are
never string-formatted on any path modelled here but a total branch is
required). -/
def jvalPyStr : JVal → String
  | JVal.null => "None"
  | JVal.bool true => "True"
  | JVal.bool false => "False"
  | JVal.num n => toString n
  | JVal.fnum lit => lit
  | JVal.str s => s
  | JVal.arr _ => "[…]"
  | JVal.obj _ => "\x7b…\x7d"

/-- Python `repr()` of a decoded JSON atom, as used by `!r` formatting of the
unknown-tool error.  Containers never reach this function (they are
unhashable, so `dict.get` raises first), but a total branch is required. -/
def pyReprAtom : JVal → String
  | JVal.null => "None"
  | JVal.bool true => "True"
  | JVal.bool false => "False"
  | JVal.num n => toString n
  | JVal.fnum lit => lit
  | JVal.str s => pyReprStr s
  | JVal.arr _ => "[…]"
  | JVal.obj _ => "\x7b…\x7d"

/-- Python `str(ToolResult)`: the output on success, a bracketed error line on
failure. -/
def toolResultStr (r : ToolResult) : String :=
  if r.success then r.output
  else "[ERROR from " ++ jvalPyStr r.tool_name ++ "] " ++ r.error

/-- A `Tool`: a named, typed capability.  The handler takes the keyword
arguments of the invocation and either returns a `ToolResult` or raises. -/
structure Tool where
  name : String
  description : String
  params : List ToolParam
  handler : List (String × JVal) → Except PyExc ToolResult
  category : String

/-- Model of `Tool.invoke`: validate required params, then call the handler inside
`try/except` — any exception becomes a failure result carrying the
exception's type name, message and trace, exactly as the f-string
`f"{type(exc).__name__}: {exc}\n{traceback.format_exc()}"` builds it. -/
def Tool.invoke (t : Tool) (kwargs : List (String × JVal)) : ToolResult :=
  match t.params.find? (fun p => p.required && !(kwargsHas kwargs p.name)) with
  | some p =>
      { tool_name := JVal.str t.name, success := false, output := "",
        error := "Missing required parameter: " ++ pyReprStr p.name }
  | none =>
      match t.handler kwargs with
      | Except.ok r => r
      | Except.error exc =>
          { tool_name := JVal.str t.name, success := false, output := "",
            error := exc.typeName ++ ": " ++ exc.msg ++ "\n" ++ exc.trace }

/-- Model of `Tool.describe`: `name(param: type[, ...]) — description`. -/
def Tool.describe (t : Tool) : String :=
  t.name ++ "(" ++
    joinComma (t.params.map (fun p =>
      p.name ++ ": " ++ p.type ++ (if p.required then "" else "?"))) ++
    ") — " ++ t.description

/-- Model of `ToolRegistry`: `_tools` is a Python dict keyed by tool name; modelled as
the list of tools in dict insertion order, names unique by construction of
`register`. -/
structure ToolRegistry where
  tools : List Tool

/-- Model of `ToolRegistry.register`: insert or replace by name.  A replaced tool keeps
its dict position, a new name is appended — CPython dict semantics. -/
def ToolRegistry.register (reg : ToolRegistry) (t : Tool) : ToolRegistry :=
  if reg.tools.any (fun u => u.name == t.name) then
    ⟨reg.tools.map (fun u => if u.name == t.name then t else u)⟩
  else
    ⟨reg.tools ++ [t]⟩

/-- Model of `ToolRegistry.unregister`: remove by name, reporting whether it existed. -/
def ToolRegistry.unregister (reg : ToolRegistry) (name : String) :
    ToolRegistry × Bool :=
  if reg.tools.any (fun u => u.name == name) then
    (⟨reg.tools.filter (fun u => !(u.name == name))⟩, true)
  else
    (reg, false)

/-- Model of `ToolRegistry.get`: `self._tools.get(name)`. -/
def ToolRegistry.get (reg : ToolRegistry) (name : String) : Option Tool :=
  reg.tools.find? (fun u => u.name == name)

/-- The registry's key view, `list(self._tools)`: names in insertion order. -/
def ToolRegistry.names (reg : ToolRegistry) : List String :=
  reg.tools.map (fun u => u.name)

/-- Comparison used by `list_tools`: sort key `(category, name)`. -/
def toolOrderLe (a b : Tool) : Bool :=
  if a.category == b.category then strLe a.name b.name
  else strLe a.category b.category

/-- Insertion step for `ToolRegistry.list_tools`. -/
def insertTool (x : Tool) : List Tool → List Tool
  | [] => [x]
  | y :: ys => if toolOrderLe x y then x :: y :: ys else y :: insertTool x ys

/-- Model of `ToolRegistry.list_tools` without a category filter: all tools sorted by
`(category, name)`. -/
def ToolRegistry.list_tools (reg : ToolRegistry) : List Tool :=
  (reg.tools.reverse).foldl (fun acc t => insertTool t acc) []

/-- Model of `ToolRegistry.describe_all`: the catalogue rendered for the LLM prompt. -/
def ToolRegistry.describe_all (reg : ToolRegistry) : String :=
  ("Available tools:" :: (reg.list_tools.map (fun t => "  " ++ t.describe))).foldr
    (fun line acc => if acc == "" then line else line ++ "\n" ++ acc) ""

/-- The failure result `ToolRegistry.invoke` builds for an unknown name:
error text `Unknown tool: {name!r}. Available: {', '.join(sorted(self._tools))}`.
`nameRepr` is the `!r` rendering of the attempted name. -/
def unknownToolResult (nameVal : JVal) (nameRepr : String) (reg : ToolRegistry) :
    ToolResult :=
  { tool_name := nameVal, success := false, output := "",
    error := "Unknown tool: " ++ nameRepr ++ ". Available: " ++
             joinComma (sortStrings reg.names) }

/-- Model of `ToolRegistry.invoke` for a string name (the only kind the registry's own
callers pass; the agent loop's non-string names are handled by
`invokeByJName`). -/
def ToolRegistry.invoke (reg : ToolRegistry) (name : String)
    (kwargs : List (String × JVal)) : ToolResult :=
  match reg.get name with
  | none => unknownToolResult (JVal.str name) (pyReprStr name) reg
  | some t => t.invoke kwargs

/-! ## `ai_helper/agent.py`: data types -/

/-- Model of `AgentStep`: one reasoning/action step.  `thought` and `tool_name` come
straight from decoded JSON in the generative loop, hence `JVal`; the
rule-based planner stores strings.  `elapsed_s` is not modelled. -/
structure AgentStep where
  step_number : Nat
  thought : JVal
  tool_name : JVal
  tool_args : List (String × JVal)
  result : ToolResult

/-- Model of `AgentResult`: the outcome of `Agent.execute`.  `answer` is a `JVal`
because the finish action's `args.answer` need not be a string;
every answer the code builds itself is a `JVal.str`.  `total_elapsed_s` is
not modelled. -/
structure AgentResult where
  goal : String
  answer : JVal
  steps : List AgentStep
  success : Bool

/-- One chat message `{"role": ..., "content": ...}`. -/
structure Msg where
  role : String
  content : String

/-- The `GenerateResult` fields the loop reads: `response` and `error`
(`error` empty means no transport error). -/
structure GenResult where
  response : String
  error : String

/-- The generative transport: `OllamaClient.chat` as a function of the full
message history (model name and timeout do not influence the embedded
behaviour and are dropped). -/
def Transport : Type := List Msg → GenResult

/-! ## The generative planning loop (`Agent._run_ollama_loop`) -/

/-- Mutable state of the loop: the `AgentResult` fields it updates plus the
conversation history. -/
structure LoopSt where
  answer : JVal
  steps : List AgentStep
  messages : List Msg

/-- Outcome of one loop iteration: continue, break out of the `for`, or a
Python exception propagating out of `_run_ollama_loop`. -/
inductive IterOut where
  | cont : LoopSt → IterOut
  | brk : LoopSt → IterOut
  | raised : PyExc → IterOut

/-- Test `tool_name == Agent._FINISH` — Python `==` against the string sentinel is
`False` for every non-string JSON value. -/
def isFinish : JVal → Bool
  | JVal.str s => s == "finish"
  | _ => false

/-- The `TypeError` CPython raises for `f(**x)` when `x` is not a mapping. -/
def starStarNotMappingExc : PyExc :=
  ⟨"TypeError",
   "ai_helper.tools.ToolRegistry.invoke() argument after ** must be a mapping",
   ""⟩

/-- The `TypeError` CPython raises when a `**`-spread keyword collides with a
parameter already bound at the call (`name` positionally, `self` via the
bound method). -/
def multipleValuesExc : PyExc :=
  ⟨"TypeError", "invoke() got multiple values for argument", ""⟩

/-- The `TypeError` CPython raises for `dict.get(k)` with an unhashable key
(a decoded JSON array or object used as a tool name). -/
def unhashableExc : PyExc :=
  ⟨"TypeError", "unhashable type", ""⟩

/-- The `AttributeError` CPython raises for `x.get(...)` when `x` is not a
dict (the finish branch reads `tool_args.get("answer", raw)`). -/
def noGetAttrExc : PyExc :=
  ⟨"AttributeError", "object has no attribute " ++ pyReprStr "get", ""⟩

/-- The body of `ToolRegistry.invoke` reached from the agent loop, where the
name is an arbitrary decoded JSON value: `self._tools.get(name)` raises on
unhashable names, misses on non-string hashable names, and dispatches on
string names. -/
def invokeByJName (reg : ToolRegistry) (toolName : JVal)
    (kwargs : List (String × JVal)) : Except PyExc ToolResult :=
  match toolName with
  | JVal.str s => Except.ok (reg.invoke s kwargs)
  | JVal.arr _ => Except.error unhashableExc
  | JVal.obj _ => Except.error unhashableExc
  | v => Except.ok (unknownToolResult v (pyReprAtom v) reg)

/-- The observation message text appended after a tool call. -/
def observationOf (tr : ToolResult) : String :=
  if tr.success then tr.output else "Error: " ++ tr.error

/-- Process one successfully parsed action object `act` (raw reply `raw`),
lines 218–242 of `agent.py`: read `thought`/`tool`/`args` with defaults,
stop on the `finish` sentinel, otherwise perform
`self.registry.invoke(tool_name, **tool_args)` — whose `**`-spread raises
`TypeError` on a non-mapping `args` and on the reserved keywords `name` and
`self` — then append the step and the two conversation messages. -/
def actionStep (reg : ToolRegistry) (stepNum : Nat) (st : LoopSt) (raw : String)
    (act : List (String × JVal)) : IterOut :=
  let thought := jObjGetD act "thought" (JVal.str "")
  let toolName := jObjGetD act "tool" (JVal.str "")
  let toolArgs := jObjGetD act "args" (JVal.obj [])
  if isFinish toolName then
    match toolArgs with
    | JVal.obj kvs =>
        IterOut.brk { st with answer := jObjGetD kvs "answer" (JVal.str raw) }
    | _ => IterOut.raised noGetAttrExc
  else
    match toolArgs with
    | JVal.obj kvs =>
        if kvs.any (fun kv => kv.1 == "name" || kv.1 == "self") then
          IterOut.raised multipleValuesExc
        else
          match invokeByJName reg toolName kvs with
          | Except.error e => IterOut.raised e
          | Except.ok tr =>
              IterOut.cont
                { answer := st.answer,
                  steps := st.steps ++
                    [{ step_number := stepNum, thought := thought,
                       tool_name := toolName, tool_args := kvs, result := tr }],
                  messages := st.messages ++
                    [{ role := "assistant", content := raw },
                     { role := "user",
                       content := "Tool result:\n" ++ observationOf tr }] }
    | _ => IterOut.raised starStarNotMappingExc

/-- One iteration of the `for step_num in range(1, max_steps + 1)` loop:
ask the transport, stop on a transport error, fall back to the raw reply when
no action can be extracted, otherwise run `actionStep`. -/
def agentIter (reg : ToolRegistry) (transport : Transport) (stepNum : Nat)
    (st : LoopSt) : IterOut :=
  let llm := transport st.messages
  if llm.error != "" then
    IterOut.brk { st with answer := JVal.str ("Ollama error: " ++ llm.error) }
  else
    let raw := pyStrip llm.response
    match parseAction raw with
    | none => IterOut.brk { st with answer := JVal.str raw }
    | some act => actionStep reg stepNum st raw act

/-- Run the loop for at most `fuel` iterations, numbering them from
`stepNum`; a break returns the state, an uncaught exception propagates. -/
def agentLoop (reg : ToolRegistry) (transport : Transport) :
    Nat → Nat → LoopSt → Except PyExc LoopSt
  | 0, _, st => Except.ok st
  | fuel + 1, stepNum, st =>
      match agentIter reg transport stepNum st with
      | IterOut.raised e => Except.error e
      | IterOut.brk st2 => Except.ok st2
      | IterOut.cont st2 => agentLoop reg transport fuel (stepNum + 1) st2

/-- Model of `_SYSTEM_PROMPT_TEMPLATE.format(tool_catalogue=...)`. -/
def systemPrompt (reg : ToolRegistry) : String :=
  "You are AI Helper, an intelligent desktop assistant with access to the " ++
  "user\x27s computer files, programs and system information.\n\n" ++
  reg.describe_all ++
  "\n\nYour job is to accomplish the user\x27s goal step by step.\n\n" ++
  "Rules:\n- At each step, decide which ONE tool to call next.\n" ++
  "- Reply with ONLY a JSON object, no extra text:\n" ++
  "  \x7b\"thought\": \"<why this tool>\", \"tool\": \"<tool_name>\", " ++
  "\"args\": \x7b\"<param>\": \"<value>\"\x7d\x7d\n" ++
  "- When the goal is fully accomplished, reply with:\n" ++
  "  \x7b\"thought\": \"<summary>\", \"tool\": \"finish\", " ++
  "\"args\": \x7b\"answer\": \"<final answer to user>\"\x7d\x7d\n" ++
  "- If a tool fails, try a different approach.\n" ++
  "- Keep thoughts concise (one sentence).\n"

/-- Model of `Agent._run_ollama_loop` followed by its trailing default-answer fixup:
seed the history with the system prompt and the goal, run at most `maxSteps`
iterations, then replace a falsy answer by the last step's output or the
give-up message. -/
def runOllamaLoop (reg : ToolRegistry) (transport : Transport) (goal : String)
    (maxSteps : Nat) : Except PyExc (JVal × List AgentStep) :=
  let st0 : LoopSt :=
    { answer := JVal.str "", steps := [],
      messages := [{ role := "system", content := systemPrompt reg },
                   { role := "user", content := goal }] }
  match agentLoop reg transport maxSteps 1 st0 with
  | Except.error e => Except.error e
  | Except.ok st =>
      if pyTruthy st.answer then Except.ok (st.answer, st.steps)
      else
        Except.ok
          (JVal.str (match st.steps.getLast? with
            | some s => s.result.output
            | none => "I could not complete the goal within the step limit."),
           st.steps)

/-! ## The rule-based planner (`Agent._run_rule_based`) -/

/-- Source `Agent._extract_args` is a per-tool free-text heuristic whose output
never influences any claim under study (only the tool choice and step count
do); the planner is therefore parametrised by the extraction function. -/
def ExtractArgs : Type := String → String → List (String × JVal)

/-- Model of `Agent._run_rule_based`: evaluate the rules in list order against the
lower-cased goal; on the first match invoke that rule's tool once with the
extracted arguments; with no match invoke the `system_snapshot` fallback.
Exactly one step is appended either way.  Returns `(answer, steps)`. -/
def runRuleBased (extractArgs : ExtractArgs) (reg : ToolRegistry)
    (goal : String) : JVal × List AgentStep :=
  let goalLower := strLower goal
  match agentRules.find? (fun pr => reSearch pr.1 goalLower) with
  | some pr =>
      let args := extractArgs pr.2 goal
      let tr := reg.invoke pr.2 args
      let step : AgentStep :=
        { step_number := 1,
          thought := JVal.str ("Goal matches pattern for " ++ pyReprStr pr.2),
          tool_name := JVal.str pr.2, tool_args := args, result := tr }
      (if tr.success then JVal.str tr.output else JVal.str (toolResultStr tr),
       [step])
  | none =>
      let tr := reg.invoke "system_snapshot" []
      let step : AgentStep :=
        { step_number := 1,
          thought := JVal.str "No specific tool matched; showing system status",
          tool_name := JVal.str "system_snapshot", tool_args := [], result := tr }
      (JVal.str
        ("I\x27m not sure how to handle that specific request yet, but here is " ++
         "the current system status:\n\n" ++ tr.output),
       [step])

/-! ## `Agent.execute` -/

/-- Model of `Agent.execute`: pick the planner from the availability probe, run it,
then set `success = bool(result.answer)`.  The probe result is passed in as
`available` (it is an injected boolean in the code's tests as well). -/
def Agent.execute (reg : ToolRegistry) (maxSteps : Nat)
    (extractArgs : ExtractArgs) (available : Bool) (transport : Transport)
    (goal : String) : Except PyExc AgentResult :=
  if available then
    match runOllamaLoop reg transport goal maxSteps with
    | Except.error e => Except.error e
    | Except.ok (ans, steps) =>
        Except.ok { goal := goal, answer := ans, steps := steps,
                    success := pyTruthy ans }
  else
    let (ans, steps) := runRuleBased extractArgs reg goal
    Except.ok { goal := goal, answer := ans, steps := steps,
                success := pyTruthy ans }

/-! ## Derived notions used by the claims -/

/-- A recorded step either names a tool registered in `reg` or carries a
failed invocation result. -/
def StepOk (reg : ToolRegistry) (step : AgentStep) : Prop :=
  (∃ s, step.tool_name = JVal.str s ∧ (reg.get s).isSome = true) ∨
  step.result.success = false

/-- An empty registry (`ToolRegistry(register_defaults=False)`). -/
def regEmpty : ToolRegistry := ⟨[]⟩

/-- A trivial argument-extraction function. -/
def noExtract : ExtractArgs := fun _ _ => []

/-- A scripted transport that always returns the same reply with no error. -/
def constT (reply : String) : Transport := fun _ => { response := reply, error := "" }

/-- First value of an `Except`, with a default for the error case. -/
def exceptOkD (x : Except PyExc AgentResult) (d : AgentResult) : AgentResult :=
  match x with
  | Except.ok r => r
  | Except.error _ => d

/-- A placeholder `AgentResult` used as the default of `exceptOkD`. -/
def arDefault : AgentResult :=
  { goal := "", answer := JVal.str "", steps := [], success := false }

/-- Reply that finishes immediately with answer `"42"`. -/
def finish42Reply : String :=
  "\x7b\"tool\": \"finish\", \"args\": \x7b\"answer\": \"42\"\x7d\x7d"

/-- Reply that finishes immediately with an empty (falsy) answer. -/
def finishEmptyReply : String :=
  "\x7b\"tool\": \"finish\", \"args\": \x7b\"answer\": \"\"\x7d\x7d"

/-- Reply calling a tool name that no registry in the counterexample run
contains. -/
def ghostReply : String :=
  "\x7b\"thought\": \"t\", \"tool\": \"ghost\", \"args\": \x7b\x7d\x7d"

/-- The result of the ghost-tool run with `max_steps = 1`. -/
def ghostRunResult : AgentResult :=
  exceptOkD (Agent.execute regEmpty 1 noExtract true (constT ghostReply) "g")
    arDefault

/-- The result of the ghost-tool run with `max_steps = 2` (step-limit
witness). -/
def ghostRunResult2 : AgentResult :=
  exceptOkD (Agent.execute regEmpty 2 noExtract true (constT ghostReply) "g")
    arDefault

/-- A well-formed structured action followed by prose containing a second
brace-delimited fragment (claim C10's scenario). -/
def multiBraceReply : String :=
  "\x7b\"thought\": \"t\", \"tool\": \"x\", \"args\": \x7b\x7d\x7d" ++
  " Next I will consider \x7bmore options\x7d."

/-- The well-formed prefix of `multiBraceReply`. -/
def multiBraceHead : String :=
  "\x7b\"thought\": \"t\", \"tool\": \"x\", \"args\": \x7b\x7d\x7d"

/-- The fields of the round-trip claim's action object. -/
def roundTripFields : List (String × JVal) :=
  [("thought", JVal.str "t"), ("tool", JVal.str "x"),
   ("args", JVal.obj [("a", JVal.num 1)])]

/-- The action object of the round-trip claim. -/
def roundTripAct : JVal := JVal.obj roundTripFields

/-- The round-trip action's JSON text surrounded by prose and a fenced code
block. -/
def roundTripWrapped : String :=
  "Sure, here is the action:\n```json\n" ++ jsonDumps roundTripAct ++
  "\n```\nLet me know how it goes."

/-- The `echo` tool of the repository's own agent tests: one required
parameter, a handler that never raises. -/
def echoTool : Tool :=
  { name := "echo", description := "Echo the input text.",
    params := [{ name := "text", type := "str", description := "text to echo",
                 required := true, default := JVal.null }],
    handler := fun kwargs =>
      Except.ok { tool_name := JVal.str "echo", success := true,
                  output := jvalPyStr (jObjGetD kwargs "text" (JVal.str "")),
                  error := "" },
    category := "test" }

/-- A registry holding only the `echo` tool. -/
def regEcho : ToolRegistry := ToolRegistry.register regEmpty echoTool

/-- The exception a deliberately failing handler raises. -/
def boomExc : PyExc :=
  { typeName := "ValueError", msg := "boom",
    trace := "Traceback (most recent call last):\n  ..." }

/-- A tool whose handler always raises `boomExc`. -/
def boomTool : Tool :=
  { name := "boom", description := "Always raises.", params := [],
    handler := fun _ => Except.error boomExc, category := "test" }

/-- A registry holding only the `boom` tool. -/
def regBoom : ToolRegistry := ToolRegistry.register regEmpty boomTool

/-- An initial loop state with an empty history (the scripted transports
ignore the history). -/
def stInit : LoopSt := { answer := JVal.str "", steps := [], messages := [] }

/-! ## Structural lemmas about one loop iteration -/

/-- Lemma: `invokeByJName` either succeeds on a registered string name or returns a
failed result (when it returns at all). -/
theorem invokeByJName_ok_cases (reg : ToolRegistry) (toolName : JVal)
    (kwargs : List (String × JVal)) (tr : ToolResult)
    (h : invokeByJName reg toolName kwargs = Except.ok tr) :
    (∃ s, toolName = JVal.str s ∧ (reg.get s).isSome = true) ∨
    tr.success = false := by
  cases toolName with
  | str s =>
      simp only [invokeByJName, Except.ok.injEq] at h
      cases hg : reg.get s with
      | some t => exact Or.inl ⟨s, rfl, by simp [hg]⟩
      | none =>
          refine Or.inr ?_
          rw [← h]
          simp [ToolRegistry.invoke, hg, unknownToolResult]
  | null => simp only [invokeByJName, Except.ok.injEq] at h; rw [← h]; exact Or.inr rfl
  | bool b => simp only [invokeByJName, Except.ok.injEq] at h; rw [← h]; exact Or.inr rfl
  | num n => simp only [invokeByJName, Except.ok.injEq] at h; rw [← h]; exact Or.inr rfl
  | fnum lit => simp only [invokeByJName, Except.ok.injEq] at h; rw [← h]; exact Or.inr rfl
  | arr xs => simp [invokeByJName] at h
  | obj kvs => simp [invokeByJName] at h

/-- Classification of `actionStep`: a break leaves the steps unchanged, a
continue appends exactly one step satisfying `StepOk`, otherwise an
exception is raised. -/
theorem actionStep_cases (reg : ToolRegistry) (n : Nat) (st : LoopSt)
    (raw : String) (act : List (String × JVal)) :
    (∃ st2, actionStep reg n st raw act = IterOut.brk st2 ∧
       st2.steps = st.steps) ∨
    (∃ st2 step, actionStep reg n st raw act = IterOut.cont st2 ∧
       st2.steps = st.steps ++ [step] ∧ StepOk reg step) ∨
    (∃ e, actionStep reg n st raw act = IterOut.raised e) := by
  unfold actionStep
  by_cases hf : isFinish (jObjGetD act "tool" (JVal.str "")) = true
  · simp only [hf, if_true]
    cases jObjGetD act "args" (JVal.obj []) <;>
      first
        | exact Or.inr (Or.inr ⟨_, rfl⟩)
        | exact Or.inl ⟨_, rfl, rfl⟩
  · simp only [Bool.not_eq_true] at hf
    simp only [hf, Bool.false_eq_true, if_false]
    cases jObjGetD act "args" (JVal.obj []) with
    | obj kvs =>
        by_cases hres : kvs.any (fun kv => kv.1 == "name" || kv.1 == "self") = true
        · simp only [hres, if_true]
          exact Or.inr (Or.inr ⟨_, rfl⟩)
        · simp only [Bool.not_eq_true] at hres
          simp only [hres, Bool.false_eq_true, if_false]
          cases hin : invokeByJName reg (jObjGetD act "tool" (JVal.str "")) kvs with
          | error e => exact Or.inr (Or.inr ⟨e, rfl⟩)
          | ok tr =>
              refine Or.inr (Or.inl ⟨_, _, rfl, rfl, ?_⟩)
              exact invokeByJName_ok_cases reg _ kvs tr hin
    | null => exact Or.inr (Or.inr ⟨_, rfl⟩)
    | bool b => exact Or.inr (Or.inr ⟨_, rfl⟩)
    | num n2 => exact Or.inr (Or.inr ⟨_, rfl⟩)
    | fnum lit => exact Or.inr (Or.inr ⟨_, rfl⟩)
    | str s => exact Or.inr (Or.inr ⟨_, rfl⟩)
    | arr xs => exact Or.inr (Or.inr ⟨_, rfl⟩)

/-- Classification of `agentIter`, inherited from `actionStep_cases`. -/
theorem agentIter_cases (reg : ToolRegistry) (transport : Transport) (n : Nat)
    (st : LoopSt) :
    (∃ st2, agentIter reg transport n st = IterOut.brk st2 ∧
       st2.steps = st.steps) ∨
    (∃ st2 step, agentIter reg transport n st = IterOut.cont st2 ∧
       st2.steps = st.steps ++ [step] ∧ StepOk reg step) ∨
    (∃ e, agentIter reg transport n st = IterOut.raised e) := by
  unfold agentIter
  by_cases herr : (transport st.messages).error != ""
  · simp only [herr, if_true]
    exact Or.inl ⟨_, rfl, rfl⟩
  · simp only [herr, Bool.false_eq_true, if_false]
    cases hp : parseAction (pyStrip (transport st.messages).response) with
    | none => exact Or.inl ⟨_, rfl, rfl⟩
    | some act => exact actionStep_cases reg n st _ act

/-- The loop adds at most `fuel` steps to the state it starts from. -/
theorem agentLoop_length (reg : ToolRegistry) (transport : Transport) :
    ∀ fuel n st st2, agentLoop reg transport fuel n st = Except.ok st2 →
      st2.steps.length ≤ st.steps.length + fuel := by
  intro fuel
  induction fuel with
  | zero =>
      intro n st st2 h
      simp only [agentLoop, Except.ok.injEq] at h
      rw [← h]
      simp
  | succ fuel ih =>
      intro n st st2 h
      rcases agentIter_cases reg transport n st with
        ⟨stB, hB, hBs⟩ | ⟨stC, step, hC, hCs, _⟩ | ⟨e, hE⟩
      · rw [agentLoop, hB] at h
        simp only [Except.ok.injEq] at h
        rw [← h, hBs]
        omega
      · rw [agentLoop, hC] at h
        have := ih (n + 1) stC st2 h
        rw [hCs] at this
        simp only [List.length_append, List.length_cons, List.length_nil] at this
        omega
      · rw [agentLoop, hE] at h
        exact absurd h (by simp)

/-- Every step the loop adds satisfies `StepOk`. -/
theorem agentLoop_stepOk (reg : ToolRegistry) (transport : Transport) :
    ∀ fuel n st st2, agentLoop reg transport fuel n st = Except.ok st2 →
      (∀ x ∈ st.steps, StepOk reg x) → ∀ x ∈ st2.steps, StepOk reg x := by
  intro fuel
  induction fuel with
  | zero =>
      intro n st st2 h hInv
      simp only [agentLoop, Except.ok.injEq] at h
      rw [← h]
      exact hInv
  | succ fuel ih =>
      intro n st st2 h hInv
      rcases agentIter_cases reg transport n st with
        ⟨stB, hB, hBs⟩ | ⟨stC, step, hC, hCs, hOk⟩ | ⟨e, hE⟩
      · rw [agentLoop, hB] at h
        simp only [Except.ok.injEq] at h
        rw [← h, hBs]
        exact hInv
      · rw [agentLoop, hC] at h
        refine ih (n + 1) stC st2 h ?_
        rw [hCs]
        intro x hx
        rcases List.mem_append.mp hx with hx1 | hx2
        · exact hInv x hx1
        · rw [List.mem_singleton] at hx2
          rw [hx2]
          exact hOk
      · rw [agentLoop, hE] at h
        exact absurd h (by simp)

/-- A string-name invocation either hits a registered tool or fails. -/
theorem invoke_get_or_failed (reg : ToolRegistry) (s : String)
    (kwargs : List (String × JVal)) :
    (reg.get s).isSome = true ∨ (reg.invoke s kwargs).success = false := by
  cases hg : reg.get s with
  | some t => exact Or.inl (by simp [hg])
  | none => exact Or.inr (by simp [ToolRegistry.invoke, hg, unknownToolResult])

/-- The single step of a rule-based run satisfies `StepOk`. -/
theorem runRuleBased_stepOk (ea : ExtractArgs) (reg : ToolRegistry)
    (goal : String) : ∀ x ∈ (runRuleBased ea reg goal).2, StepOk reg x := by
  unfold runRuleBased
  cases hf : agentRules.find? (fun pr => reSearch pr.1 (strLower goal)) with
  | some pr =>
      intro x hx
      simp only [hf, List.mem_singleton] at hx
      rw [hx]
      rcases invoke_get_or_failed reg pr.2 (ea pr.2 goal) with h | h
      · exact Or.inl ⟨pr.2, rfl, h⟩
      · exact Or.inr h
  | none =>
      intro x hx
      simp only [hf, List.mem_singleton] at hx
      rw [hx]
      rcases invoke_get_or_failed reg "system_snapshot" [] with h | h
      · exact Or.inl ⟨"system_snapshot", rfl, h⟩
      · exact Or.inr h

/-- A successful `runOllamaLoop` comes from a successful `agentLoop` run on
the seeded history, with the same step list. -/
theorem runOllamaLoop_inv (reg : ToolRegistry) (transport : Transport)
    (goal : String) (maxSteps : Nat) (ans : JVal) (steps : List AgentStep)
    (h : runOllamaLoop reg transport goal maxSteps = Except.ok (ans, steps)) :
    ∃ st2, agentLoop reg transport maxSteps 1
        { answer := JVal.str "", steps := [],
          messages := [{ role := "system", content := systemPrompt reg },
                       { role := "user", content := goal }] } = Except.ok st2 ∧
      steps = st2.steps := by
  unfold runOllamaLoop at h
  simp only [] at h
  cases hl : agentLoop reg transport maxSteps 1
      { answer := JVal.str "", steps := [],
        messages := [{ role := "system", content := systemPrompt reg },
                     { role := "user", content := goal }] } with
  | error e => rw [hl] at h; exact absurd h (by simp)
  | ok st2 =>
      rw [hl] at h
      refine ⟨st2, rfl, ?_⟩
      by_cases ht : pyTruthy st2.answer = true
      · simp only [ht, if_true, Except.ok.injEq, Prod.mk.injEq] at h
        exact h.2.symm
      · rw [Bool.not_eq_true] at ht
        simp only [ht, Bool.false_eq_true, if_false, Except.ok.injEq,
          Prod.mk.injEq] at h
        exact h.2.symm

/-- Insertion keeps every candidate. -/
theorem mem_insertStr_of {a x : String} {l : List String}
    (h : a = x ∨ a ∈ l) : a ∈ insertStr x l := by
  induction l with
  | nil =>
      rcases h with h | h
      · rw [h]; exact List.mem_singleton.mpr rfl
      · exact absurd h (List.not_mem_nil a)
  | cons y ys ih =>
      unfold insertStr
      split
      · rcases h with h | h
        · rw [h]; exact List.mem_cons_self x _
        · exact List.mem_cons_of_mem x h
      · rcases h with h | h
        · exact List.mem_cons_of_mem y (ih (Or.inl h))
        · rcases List.mem_cons.mp h with h1 | h2
          · rw [h1]; exact List.mem_cons_self y _
          · exact List.mem_cons_of_mem y (ih (Or.inr h2))

/-- Sorting keeps every element. -/
theorem mem_sortStrings_of {a : String} :
    ∀ {l : List String}, a ∈ l → a ∈ sortStrings l := by
  intro l
  induction l with
  | nil => intro h; exact absurd h (List.not_mem_nil a)
  | cons x xs ih =>
      intro h
      rcases List.mem_cons.mp h with h1 | h2
      · exact mem_insertStr_of (Or.inl h1)
      · exact mem_insertStr_of (Or.inr (ih h2))

/-- Every joined element is a substring of the comma-joined text. -/
theorem joinComma_infix {s : String} :
    ∀ {l : List String}, s ∈ l → s.data <:+: (joinComma l).data := by
  intro l
  induction l with
  | nil => intro h; exact absurd h (List.not_mem_nil s)
  | cons x rest ih =>
      intro h
      cases rest with
      | nil =>
          rw [List.mem_singleton] at h
          rw [h]
          exact List.infix_refl x.data
      | cons y ys =>
          have hj : joinComma (x :: y :: ys) = x ++ ", " ++ joinComma (y :: ys) := rfl
          rw [hj, String.data_append, String.data_append]
          rcases List.mem_cons.mp h with h1 | h2
          · rw [h1, List.append_assoc]
            exact (List.prefix_append x.data _).isInfix
          · exact (ih h2).trans (List.suffix_append _ _).isInfix

/-- A string is a substring of anything built around it by concatenation. -/
theorem containsStr_around (pre mid post : String) :
    containsStr (pre ++ mid ++ post) mid := by
  unfold containsStr
  rw [String.data_append, String.data_append]
  exact List.infix_append pre.data mid.data post.data

/-- A `flatMap` whose function is the singleton on every element of the list
is the identity. -/
theorem flatMap_eq_self {l : List Char} {f : Char → List Char}
    (h : ∀ c ∈ l, f c = [c]) : l.flatMap f = l := by
  induction l with
  | nil => rfl
  | cons c rest ih =>
      rw [List.flatMap_cons, h c (List.mem_cons_self c rest),
        ih (fun d hd => h d (List.mem_cons_of_mem c hd))]
      rfl

/-- Membership makes `hasCh` true. -/
theorem hasCh_of_mem {l : List Char} {c : Char} (h : c ∈ l) :
    hasCh l c = true := by
  unfold hasCh
  rw [List.any_eq_true]
  exact ⟨c, h, by simp⟩

/-- No character of a plain name is the quote its `repr` picks. -/
theorem plain_ne_reprQuote {s : String} {c : Char}
    (hq2 : (hasCh s.data squote && hasCh s.data dquote) = false)
    (hc : c ∈ s.data) : (c == reprQuote s) = false := by
  rw [beq_eq_false_iff_ne]
  intro hceq
  unfold reprQuote at hceq
  by_cases h1 : (hasCh s.data squote && !(hasCh s.data dquote)) = true
  · rw [if_pos h1] at hceq
    rw [Bool.and_eq_true, Bool.not_eq_true'] at h1
    have hdqt : hasCh s.data dquote = true := hasCh_of_mem (hceq ▸ hc)
    rw [h1.2] at hdqt
    exact absurd hdqt (by simp)
  · rw [if_neg h1] at hceq
    have hsq : hasCh s.data squote = true := hasCh_of_mem (hceq ▸ hc)
    by_cases hdq : hasCh s.data dquote = true
    · rw [hsq, hdq] at hq2
      exact absurd hq2 (by simp)
    · rw [Bool.not_eq_true] at hdq
      rw [Bool.and_eq_true, Bool.not_eq_true'] at h1
      exact h1 ⟨hsq, hdq⟩

/-- The `repr` of a plain name keeps the name verbatim between its quotes,
so the name is a substring of its own `repr`. -/
theorem pyReprStr_contains_of_plain (s : String) (h : plainName s = true) :
    s.data <:+: (pyReprStr s).data := by
  unfold plainName at h
  rw [Bool.and_eq_true] at h
  obtain ⟨hall, hquotes⟩ := h
  rw [List.all_eq_true] at hall
  rw [Bool.not_eq_true'] at hquotes
  have hesc : s.data.flatMap (reprEscapeChar (reprQuote s)) = s.data := by
    apply flatMap_eq_self
    intro c hc
    have hc2 := hall c hc
    rw [Bool.and_eq_true, Bool.and_eq_true] at hc2
    have h32 : 32 ≤ c.toNat := of_decide_eq_true hc2.1.1
    have h126 : c.toNat ≤ 126 := of_decide_eq_true hc2.1.2
    have hbs : (c == bslash) = false := by
      rw [Bool.not_eq_true'] at hc2
      exact hc2.2
    have hq : (c == reprQuote s) = false := plain_ne_reprQuote hquotes hc
    have htab : (c == '\t') = false := by
      rw [beq_eq_false_iff_ne]
      intro he
      rw [he] at h32
      exact absurd h32 (by decide)
    have hnl : (c == '\n') = false := by
      rw [beq_eq_false_iff_ne]
      intro he
      rw [he] at h32
      exact absurd h32 (by decide)
    have hcr : (c == '\r') = false := by
      rw [beq_eq_false_iff_ne]
      intro he
      rw [he] at h32
      exact absurd h32 (by decide)
    have hctl : (decide (c.toNat < 32) || c.toNat == 127) = false := by
      rw [Bool.or_eq_false_iff]
      refine ⟨?_, ?_⟩
      · rw [decide_eq_false_iff_not]
        omega
      · rw [beq_eq_false_iff_ne]
        omega
    unfold reprEscapeChar
    rw [hbs, hq, htab, hnl, hcr, hctl]
    simp only [Bool.false_eq_true, if_false]
  unfold pyReprStr
  simp only []
  rw [hesc]
  exact ⟨[reprQuote s], [reprQuote s], rfl⟩

/-- Extending an infix on the right keeps it an infix. -/
theorem infix_appendR {l m : List Char} (t : List Char) (h : l <:+: m) :
    l <:+: m ++ t :=
  h.trans (List.prefix_append m t).isInfix

/-- Extending an infix on the left keeps it an infix. -/
theorem infix_appendL {l m : List Char} (s : List Char) (h : l <:+: m) :
    l <:+: s ++ m :=
  h.trans (List.suffix_append s m).isInfix

/-- The first step of the ghost-tool counterexample run, written out. -/
def ghostStepEx : AgentStep :=
  { step_number := 1, thought := JVal.str "t", tool_name := JVal.str "ghost",
    tool_args := [],
    result := unknownToolResult (JVal.str "ghost") (pyReprStr "ghost") regEmpty }

/-! # The claims -/

/-- C2: for every tool name present in the registry and every keyword
argument set, `ToolRegistry.invoke` delegates to `Tool.invoke` and returns a
`ToolResult` rather than raising; in particular, when validation passes and
the tool's handler raises an exception, the exception is caught and returned
as a failure whose error text carries the exception's type name and message
followed by its trace. -/
theorem registry_invoke_contains_handler_exceptions (reg : ToolRegistry)
    (name : String) (kwargs : List (String × JVal)) (t : Tool)
    (hget : reg.get name = some t) :
    reg.invoke name kwargs = t.invoke kwargs ∧
    ∀ exc,
      t.params.find? (fun p => p.required && !(kwargsHas kwargs p.name)) = none →
      t.handler kwargs = Except.error exc →
      (reg.invoke name kwargs).success = false ∧
      (reg.invoke name kwargs).error =
        exc.typeName ++ ": " ++ exc.msg ++ "\n" ++ exc.trace := by
  have h1 : reg.invoke name kwargs = t.invoke kwargs := by
    unfold ToolRegistry.invoke
    rw [hget]
  refine ⟨h1, ?_⟩
  intro exc hval hraise
  rw [h1]
  unfold Tool.invoke
  rw [hval, hraise]
  exact ⟨rfl, rfl⟩

/-- Witness for C2: the `boom` tool's `ValueError` is returned as a failed
result with the formatted error text. -/
theorem registry_invoke_contains_handler_exceptions_witness :
    (regBoom.invoke "boom" []).success = false ∧
    (regBoom.invoke "boom" []).error =
      "ValueError: boom\nTraceback (most recent call last):\n  ..." :=
  (registry_invoke_contains_handler_exceptions regBoom "boom" [] boomTool
    rfl).2 boomExc rfl rfl

/-- C5: when a required parameter of a tool is absent from the arguments,
`Tool.invoke` fails: the result is unsuccessful, its error names a required
parameter that is indeed missing, and the handler is never consulted (the
outcome is the same for every handler). -/
theorem tool_invoke_missing_required (t : Tool) (p : ToolParam)
    (kwargs : List (String × JVal)) (hmem : p ∈ t.params)
    (hreq : p.required = true) (habs : kwargsHas kwargs p.name = false) :
    (t.invoke kwargs).success = false ∧
    (∃ q, q ∈ t.params ∧ q.required = true ∧ kwargsHas kwargs q.name = false ∧
      (t.invoke kwargs).error =
        "Missing required parameter: " ++ pyReprStr q.name) ∧
    ∀ h1 h2, Tool.invoke { t with handler := h1 } kwargs =
             Tool.invoke { t with handler := h2 } kwargs := by
  have hsome :
      (t.params.find? (fun q => q.required && !(kwargsHas kwargs q.name))).isSome = true := by
    rw [List.find?_isSome]
    exact ⟨p, hmem, by rw [hreq, habs]; rfl⟩
  obtain ⟨q, hq⟩ := Option.isSome_iff_exists.mp hsome
  have hqprop := List.find?_some hq
  rw [Bool.and_eq_true, Bool.not_eq_true'] at hqprop
  refine ⟨?_, ⟨q, List.mem_of_find?_eq_some hq, hqprop.1, hqprop.2, ?_⟩, ?_⟩
  · unfold Tool.invoke
    rw [hq]
  · unfold Tool.invoke
    rw [hq]
  · intro h1 h2
    unfold Tool.invoke
    dsimp only
    rw [hq]

/-- Witness for C5: invoking `echo` without its required `text` parameter. -/
theorem tool_invoke_missing_required_witness :
    (echoTool.invoke []).success = false ∧
    (echoTool.invoke []).error = "Missing required parameter: " ++ pyReprStr "text" := by
  have h := tool_invoke_missing_required echoTool
    { name := "text", type := "str", description := "text to echo",
      required := true, default := JVal.null } [] (by simp [echoTool]) rfl rfl
  refine ⟨h.1, ?_⟩
  obtain ⟨q, hqmem, _, _, herr⟩ := h.2.1
  have : q = { name := "text", type := "str", description := "text to echo",
               required := true, default := JVal.null } := by
    simpa [echoTool] using hqmem
  rw [herr, this]

/-- C6 counterexample: for the attempted name `"a\nb"` (a newline inside),
`repr` escapes the newline to backslash-`n`, so the error text of the real
program — reproduced by the model — does not contain the attempted name,
although the name is absent from the registry and the failure itself is
reported as claimed. -/
theorem registry_invoke_unknown_name_cex :
    regEcho.get "a\nb" = none ∧
    (regEcho.invoke "a\nb" []).success = false ∧
    (regEcho.invoke "a\nb" []).error =
      "Unknown tool: " ++ String.singleton squote ++ "a\\nb" ++
        String.singleton squote ++ ". Available: echo" ∧
    ¬ containsStr (regEcho.invoke "a\nb" []).error "a\nb" :=
  ⟨rfl, rfl, rfl, by unfold containsStr; decide⟩

/-- C6 (amended): invoking a name absent from the registry returns a failure
carrying the attempted name, whose error text contains the `repr` of the
attempted name — hence the attempted name itself whenever it is a plain name
(printable ASCII, no backslash, not both kinds of quote) — and every
currently registered name; a non-empty registry therefore always contributes
at least one real name to the error text. -/
theorem registry_invoke_unknown_name (reg : ToolRegistry) (name : String)
    (kwargs : List (String × JVal)) (hget : reg.get name = none) :
    (reg.invoke name kwargs).success = false ∧
    (reg.invoke name kwargs).tool_name = JVal.str name ∧
    containsStr (reg.invoke name kwargs).error (pyReprStr name) ∧
    (plainName name = true → containsStr (reg.invoke name kwargs).error name) ∧
    (∀ n, n ∈ reg.names → containsStr (reg.invoke name kwargs).error n) ∧
    (reg.names ≠ [] →
      ∃ n, n ∈ reg.names ∧ containsStr (reg.invoke name kwargs).error n) := by
  have hinv : reg.invoke name kwargs =
      unknownToolResult (JVal.str name) (pyReprStr name) reg := by
    unfold ToolRegistry.invoke
    rw [hget]
  rw [hinv]
  have hcontains : ∀ n, n ∈ reg.names →
      containsStr (unknownToolResult (JVal.str name) (pyReprStr name) reg).error n := by
    intro n hn
    unfold unknownToolResult containsStr
    dsimp only
    rw [String.data_append]
    refine infix_appendL _ ?_
    exact joinComma_infix (mem_sortStrings_of hn)
  have hrepr : containsStr
      (unknownToolResult (JVal.str name) (pyReprStr name) reg).error
      (pyReprStr name) := by
    unfold unknownToolResult containsStr
    dsimp only
    rw [String.data_append, String.data_append, String.data_append]
    exact infix_appendR _ (infix_appendR _ (infix_appendL _
      (List.infix_refl (pyReprStr name).data)))
  refine ⟨rfl, rfl, hrepr, ?_, hcontains, ?_⟩
  · intro hplain
    exact (pyReprStr_contains_of_plain name hplain).trans hrepr
  · intro hne
    obtain ⟨n, hn⟩ := List.exists_mem_of_ne_nil reg.names hne
    exact ⟨n, hn, hcontains n hn⟩

/-- Witness for C6 (amended): `no_such_tool` against the one-tool `echo`
registry — a plain name, contained verbatim along with the registered
name. -/
theorem registry_invoke_unknown_name_witness :
    (regEcho.invoke "no_such_tool" []).success = false ∧
    (regEcho.invoke "no_such_tool" []).tool_name = JVal.str "no_such_tool" ∧
    containsStr (regEcho.invoke "no_such_tool" []).error "no_such_tool" ∧
    containsStr (regEcho.invoke "no_such_tool" []).error "echo" := by
  have h := registry_invoke_unknown_name regEcho "no_such_tool" [] rfl
  exact ⟨h.1, h.2.1, h.2.2.2.1 (by decide), h.2.2.2.2.1 "echo" (by decide)⟩

/-- C3 counterexample: the generative loop appends a Step whose tool name
(`"ghost"`) does not exist in the registry — the unknown-tool invocation
fails but the Step is recorded all the same. -/
theorem execute_step_names_unknown_tool :
    Agent.execute regEmpty 1 noExtract true (constT ghostReply) "g" =
      Except.ok ghostRunResult ∧
    ghostRunResult.steps.map (fun s => s.tool_name) = [JVal.str "ghost"] ∧
    regEmpty.get "ghost" = none :=
  ⟨rfl, rfl, rfl⟩

/-- C3 (amended): every Step recorded by `Agent.execute` either names a tool
that exists in the registry at the time the Step is produced, or carries a
failed invocation result (as happens for unknown tool names). -/
theorem execute_steps_registered_or_failed (reg : ToolRegistry)
    (maxSteps : Nat) (ea : ExtractArgs) (available : Bool)
    (transport : Transport) (goal : String) (r : AgentResult)
    (h : Agent.execute reg maxSteps ea available transport goal = Except.ok r) :
    ∀ step ∈ r.steps,
      (∃ s, step.tool_name = JVal.str s ∧ (reg.get s).isSome = true) ∨
      step.result.success = false := by
  cases available with
  | true =>
      unfold Agent.execute at h
      rw [if_pos rfl] at h
      cases hl : runOllamaLoop reg transport goal maxSteps with
      | error e => rw [hl] at h; exact absurd h (by simp)
      | ok p =>
          obtain ⟨ans, steps⟩ := p
          rw [hl] at h
          simp only [Except.ok.injEq] at h
          obtain ⟨st2, hst, hsteps⟩ :=
            runOllamaLoop_inv reg transport goal maxSteps ans steps hl
          intro step hstep
          rw [← h] at hstep
          simp only [] at hstep
          rw [hsteps] at hstep
          exact agentLoop_stepOk reg transport maxSteps 1 _ st2 hst
            (by intro x hx; exact absurd hx (List.not_mem_nil x)) step hstep
  | false =>
      unfold Agent.execute at h
      rw [if_neg (by simp)] at h
      cases hrb : runRuleBased ea reg goal with
      | mk ans steps =>
          rw [hrb] at h
          simp only [Except.ok.injEq] at h
          intro step hstep
          rw [← h] at hstep
          simp only [] at hstep
          have := runRuleBased_stepOk ea reg goal step (by rw [hrb]; exact hstep)
          exact this

/-- Witness for C3 (amended): the recorded ghost step carries a failed
result. -/
theorem execute_steps_registered_or_failed_witness :
    (∃ s, ghostStepEx.tool_name = JVal.str s ∧ (regEmpty.get s).isSome = true) ∨
    ghostStepEx.result.success = false :=
  execute_steps_registered_or_failed regEmpty 1 noExtract true
    (constT ghostReply) "g" ghostRunResult rfl ghostStepEx
    (List.mem_singleton.mpr rfl)

/-- C4: with the generative planner selected, the number of Steps in the
result of `Agent.execute` never exceeds the configured `maxSteps`, no matter
what the transport replies. -/
theorem execute_steps_le_maxSteps (reg : ToolRegistry) (maxSteps : Nat)
    (ea : ExtractArgs) (transport : Transport) (goal : String)
    (r : AgentResult)
    (h : Agent.execute reg maxSteps ea true transport goal = Except.ok r) :
    r.steps.length ≤ maxSteps := by
  unfold Agent.execute at h
  rw [if_pos rfl] at h
  cases hl : runOllamaLoop reg transport goal maxSteps with
  | error e => rw [hl] at h; exact absurd h (by simp)
  | ok p =>
      obtain ⟨ans, steps⟩ := p
      rw [hl] at h
      simp only [Except.ok.injEq] at h
      obtain ⟨st2, hst, hsteps⟩ :=
        runOllamaLoop_inv reg transport goal maxSteps ans steps hl
      have hlen := agentLoop_length reg transport maxSteps 1 _ st2 hst
      rw [← h]
      simp only []
      rw [hsteps]
      simpa using hlen

/-- Witness for C4: a transport that keeps returning tool calls forever,
capped at 2 steps. -/
theorem execute_steps_le_maxSteps_witness : ghostRunResult2.steps.length ≤ 2 :=
  execute_steps_le_maxSteps regEmpty 2 noExtract (constT ghostReply) "g"
    ghostRunResult2 rfl

/-- C7 counterexample: a first reply finishing with `args.answer = ""` —
the claim predicts the final answer `""`, but the post-loop fixup replaces
the falsy answer with the give-up message. -/
theorem execute_finish_empty_answer_overwritten :
    Agent.execute regEmpty 10 noExtract true (constT finishEmptyReply) "g" =
      Except.ok { goal := "g",
                  answer := JVal.str
                    "I could not complete the goal within the step limit.",
                  steps := [], success := true } ∧
    JVal.str "I could not complete the goal within the step limit." ≠ JVal.str "" := by
  refine ⟨rfl, ?_⟩
  intro hcontra
  injection hcontra with hs
  exact absurd hs (by decide)

/-- C7 (amended): when the extracted action's tool is the `finish` sentinel
and its `args` is an object, the iteration stops the loop without appending
a Step, setting the provisional answer to `args.answer` (or the raw reply
when that key is absent); the final answer equals that value whenever it is
truthy, otherwise the post-loop default replaces it.  In particular a first
reply `{"tool":"finish","args":{"answer":"42"}}` yields answer `"42"` and
zero Steps. -/
theorem finish_sentinel_stops_loop (reg : ToolRegistry) (transport : Transport)
    (n : Nat) (st : LoopSt) (act : List (String × JVal))
    (kvs : List (String × JVal))
    (herr : (transport st.messages).error = "")
    (hp : parseAction (pyStrip (transport st.messages).response) = some act)
    (ht : isFinish (jObjGetD act "tool" (JVal.str "")) = true)
    (ha : jObjGetD act "args" (JVal.obj []) = JVal.obj kvs) :
    agentIter reg transport n st =
      IterOut.brk { st with
                    answer := jObjGetD kvs "answer"
                      (JVal.str (pyStrip (transport st.messages).response)) } ∧
    Agent.execute regEmpty 10 noExtract true (constT finish42Reply)
        "What is the answer?" =
      Except.ok { goal := "What is the answer?", answer := JVal.str "42",
                  steps := [], success := true } := by
  refine ⟨?_, rfl⟩
  unfold agentIter actionStep
  simp only [herr, hp, ht, ha, bne_self_eq_false, Bool.false_eq_true, if_false,
    if_true]

/-- Witness for C7 (amended): the concrete finish-42 reply stops the loop
with answer `"42"` and no step appended. -/
theorem finish_sentinel_stops_loop_witness :
    agentIter regEmpty (constT finish42Reply) 1 stInit =
      IterOut.brk { stInit with answer := JVal.str "42" } :=
  (finish_sentinel_stops_loop regEmpty (constT finish42Reply) 1 stInit
    [("tool", JVal.str "finish"), ("args", JVal.obj [("answer", JVal.str "42")])]
    [("answer", JVal.str "42")] rfl rfl rfl rfl).1

/-- C9: round-trip — `json.dumps` of the action
`{thought: "t", tool: "x", args: {a: 1}}`, surrounded by prose and a fenced
code block, is extracted back by the loop's extractor with the same thought,
tool and args fields. -/
theorem parse_action_round_trip :
    parseAction roundTripWrapped = some roundTripFields := rfl

/-- C10: a reply made of one well-formed structured action followed by prose
containing a second brace-delimited fragment defeats the greedy
first-`{`-to-last-`}` extractor: extraction returns nothing although the
action prefix alone extracts fine, so the generative loop treats the entire
raw reply as the final answer and stops without invoking the action. -/
theorem greedy_extractor_multibrace_fallback :
    parseAction multiBraceHead =
      some [("thought", JVal.str "t"), ("tool", JVal.str "x"),
            ("args", JVal.obj [])] ∧
    parseAction multiBraceReply = none ∧
    Agent.execute regEmpty 3 noExtract true (constT multiBraceReply) "g" =
      Except.ok { goal := "g", answer := JVal.str multiBraceReply,
                  steps := [], success := true } :=
  ⟨rfl, rfl, rfl⟩

end AIHelper
